import Mathlib

/-!
Shallow embedding of the cell-phone CSV statistics program (`src/main.rs`).

Modelling conventions:
* Strings are Lean strings; character-level scanning (the two extraction
  regexes and trimming) is performed on char lists.  The `regex` crate's
  `\d` is Unicode-aware, and `regex_year` is modelled with the full
  `\p{Nd}` table; the word-boundary class and the `regex_numeric` digit
  run keep declared ASCII approximations.
* Rust `f32` weights and display sizes are modelled as exact rationals
  (`ℚ`): the decimal literals extracted by the numeric regex are
  represented by their exact decimal values.
* Rust `HashMap`s are modelled as insertion-ordered association lists;
  `Iterator::max_by` / `max_by_key` keep the last maximal element of the
  iteration order, which the folds below mirror.
* A CSV input is the list of its data records (the `csv` reader consumes
  the header row before the loop); a record is a list of column strings.
-/

namespace CellsCsv

/-- Rust `str::trim`: drop leading and trailing whitespace characters
(the Unicode White_Space property is approximated by
`Char.isWhitespace`). -/
def rustTrim (s : String) : String :=
  List.asString (((s.toList.dropWhile Char.isWhitespace).reverse.dropWhile
    Char.isWhitespace).reverse)

/-- Value of a list of ASCII digit characters read in base 10, by the
usual accumulate-left scheme of integer parsing. -/
def digitsToNat (cs : List Char) : Nat :=
  cs.foldl (fun acc c => acc * 10 + (c.toNat - 48)) 0

/-- Rust `"…".parse::<u32>()` (`u32::from_str`): an optional leading plus
sign, then one or more ASCII digits and nothing else; the value must fit
in 32 bits, otherwise the parse fails with overflow.  `none` models
`Err(_)`. -/
def parseU32Chars (cs : List Char) : Option Nat :=
  let t := if cs.head? = some '+' then cs.tail else cs
  if t ≠ [] ∧ t.all Char.isDigit then
    if digitsToNat t < 4294967296 then some (digitsToNat t) else none
  else none

def parseU32 (s : String) : Option Nat := parseU32Chars s.toList

/-- The codepoint ranges of the Unicode general category `Nd` (decimal
digit), Unicode 15.1 — the character class the `regex` crate's `\d`
matches by default (`\d` is Unicode-aware unless the regex opts out,
and `regex_year` does not).  Later Unicode versions only add ranges. -/
def ndRanges : List (Nat × Nat) :=
  [(0x30, 0x39), (0x660, 0x669), (0x6F0, 0x6F9), (0x7C0, 0x7C9),
   (0x966, 0x96F), (0x9E6, 0x9EF), (0xA66, 0xA6F), (0xAE6, 0xAEF),
   (0xB66, 0xB6F), (0xBE6, 0xBEF), (0xC66, 0xC6F), (0xCE6, 0xCEF),
   (0xD66, 0xD6F), (0xDE6, 0xDEF), (0xE50, 0xE59), (0xED0, 0xED9),
   (0xF20, 0xF29), (0x1040, 0x1049), (0x1090, 0x1099), (0x17E0, 0x17E9),
   (0x1810, 0x1819), (0x1946, 0x194F), (0x19D0, 0x19D9), (0x1A80, 0x1A89),
   (0x1A90, 0x1A99), (0x1B50, 0x1B59), (0x1BB0, 0x1BB9), (0x1C40, 0x1C49),
   (0x1C50, 0x1C59), (0xA620, 0xA629), (0xA8D0, 0xA8D9), (0xA900, 0xA909),
   (0xA9D0, 0xA9D9), (0xA9F0, 0xA9F9), (0xAA50, 0xAA59), (0xABF0, 0xABF9),
   (0xFF10, 0xFF19), (0x104A0, 0x104A9), (0x10D30, 0x10D39),
   (0x11066, 0x1106F), (0x110F0, 0x110F9), (0x11136, 0x1113F),
   (0x111D0, 0x111D9), (0x112F0, 0x112F9), (0x11450, 0x11459),
   (0x114D0, 0x114D9), (0x11650, 0x11659), (0x116C0, 0x116C9),
   (0x11730, 0x11739), (0x118E0, 0x118E9), (0x11950, 0x11959),
   (0x11C50, 0x11C59), (0x11D50, 0x11D59), (0x11DA0, 0x11DA9),
   (0x11F50, 0x11F59), (0x16A60, 0x16A69), (0x16AC0, 0x16AC9),
   (0x16B50, 0x16B59), (0x1D7CE, 0x1D7FF), (0x1E140, 0x1E149),
   (0x1E2F0, 0x1E2F9), (0x1E4F0, 0x1E4F9), (0x1E950, 0x1E959),
   (0x1FBF0, 0x1FBF9)]

/-- The `regex` crate's `\d`: any Unicode decimal digit (`\p{Nd}`),
not only ASCII `0-9`. -/
def isNd (c : Char) : Bool :=
  ndRanges.any (fun r => r.1 ≤ c.toNat && c.toNat ≤ r.2)

/-- Word characters for the regex word boundary `\b`: ASCII
alphanumerics, underscore, and Unicode decimal digits.  The crate's
`\b` also counts Unicode alphabetic and combining word characters
(e.g. accented letters); those are not modelled, so boundary decisions
next to such characters may diverge from the crate.  No claim below
depends on those positions. -/
def isWordChar (c : Char) : Bool := c.isAlphanum || c == '_' || isNd c

/-- Whether `\b(\d{4})\b` matches at the start of `cs`, given the
character just before `cs` (if any); returns the four matched digit
characters (`\d` matches any `\p{Nd}` digit). -/
def yearAt (prev : Option Char) (cs : List Char) : Option (List Char) :=
  match cs with
  | a :: b :: c :: d :: rest =>
    if isNd a && isNd b && isNd c && isNd d
        && (match prev with | some p => !isWordChar p | none => true)
        && (match rest with | e :: _ => !isWordChar e | [] => true) then
      some [a, b, c, d]
    else none
  | _ => none

/-- Leftmost match of `\b(\d{4})\b`, the program's `regex_year`:
try each start position from the left, remembering the previous
character for the left word boundary. -/
def findYearChars : Option Char → List Char → Option (List Char)
  | _, [] => none
  | prev, c :: rest =>
    match yearAt prev (c :: rest) with
    | some m => some m
    | none => findYearChars (some c) rest

/-- First standalone four-digit number in `s` (`regex_year.captures(s)`;
group 1 is the whole match, so `capture[0]` and `capture[1]` coincide). -/
def findYear (s : String) : Option String :=
  (findYearChars none s.toList).map List.asString

/-- Maximal leading run of ASCII digits, and the remainder. -/
def takeDigits : List Char → List Char × List Char
  | [] => ([], [])
  | c :: rest =>
    if c.isDigit then
      let p := takeDigits rest
      (c :: p.1, p.2)
    else ([], c :: rest)

/-- Leftmost match of `\d+(\.\d+)?`, the program's `regex_numeric`: the
first maximal digit run, greedily extended by a fractional part when a
dot followed by a digit comes next. -/
def findNumericChars : List Char → Option (List Char)
  | [] => none
  | c :: rest =>
    if c.isDigit then
      let p := takeDigits (c :: rest)
      match p.2 with
      | '.' :: r2 =>
        match r2 with
        | d :: _ => if d.isDigit then some (p.1 ++ '.' :: (takeDigits r2).1) else some p.1
        | [] => some p.1
      | _ => some p.1
    else findNumericChars rest

/-- Exact rational value of a matched numeric literal `digits(.digits)?`.
Rust parses the match with `f32::from_str`; the floating-point rounding
is idealised to the exact decimal value. -/
def parseNumeric (cs : List Char) : ℚ :=
  let p := takeDigits cs
  match p.2 with
  | '.' :: frac => (digitsToNat p.1 : ℚ) + (digitsToNat frac : ℚ) / ((10 : ℚ) ^ frac.length)
  | _ => (digitsToNat p.1 : ℚ)

/-- The numeric-field extraction used for columns 5 and 8: first
`regex_numeric` match parsed as a number, absent when there is no match. -/
def extract_numeric (s : String) : Option ℚ :=
  (findNumericChars s.toList).map parseNumeric

/-- `Cell::check_empty`: a value that trims to `""` or to the sentinel
`-` becomes `None`; anything else is kept untrimmed. -/
def check_empty (value : String) : Option String :=
  if rustTrim value = "" ∨ rustTrim value = "-" then none else some value

/-- The `Cell` struct of the program; `f32` fields are rationals here. -/
structure Cell where
  oem : Option String
  model : Option String
  launch_announced : Option Nat
  launch_status : Option String
  body_dimensions : Option String
  body_weight : Option ℚ
  body_sim : Option String
  display_type : Option String
  display_size : Option ℚ
  display_resolution : Option String
  features_sensors : Option String
  platform_os : Option String
deriving DecidableEq

/-- `Cell::new`: every field starts absent. -/
def Cell.new : Cell :=
  { oem := none, model := none, launch_announced := none, launch_status := none,
    body_dimensions := none, body_weight := none, body_sim := none,
    display_type := none, display_size := none, display_resolution := none,
    features_sensors := none, platform_os := none }

/-- `record.get(i).unwrap_or_default()`: the i-th column, or `""` when
the record is too short. -/
def getCol (row : List String) (i : Nat) : String := row.getD i ""

/-- The body of the `read_csv` record loop: build one `Cell` from one
record's raw columns.  `capture[0].parse::<u32>().unwrap()` on the year
match is modelled with a default of `0`.  The `unwrap` panics whenever
the matched `\p{Nd}` digits are not ASCII, since the `u32` parse is
ASCII-only (proved reachable below on a concrete input); the embedding
totalises that panic as the default `0`. -/
def read_row (row : List String) : Cell :=
  { oem := some (getCol row 0)
    model := some (getCol row 1)
    launch_announced := (findYear (getCol row 2)).map (fun t => (parseU32 t).getD 0)
    launch_status := some (match findYear (getCol row 3) with
      | some y => y
      | none => getCol row 3)
    body_dimensions := check_empty (getCol row 4)
    body_weight := match row[5]? with
      | some s => extract_numeric s
      | none => none
    body_sim := check_empty (getCol row 6)
    display_type := check_empty (getCol row 7)
    display_size := match row[8]? with
      | some s => extract_numeric s
      | none => none
    display_resolution := check_empty (getCol row 9)
    features_sensors := check_empty (getCol row 10)
    platform_os := check_empty (getCol row 11) }

/-- `Cell::read_csv` restricted to its per-record transformation: the
file and CSV-framing layer is outside the embedding, so the input is the
list of raw records. -/
def read_csv (rows : List (List String)) : List Cell := rows.map read_row

/-- `HashMap::entry(key).or_insert(0); *count += 1` over an association
list in insertion order. -/
def addCount {α : Type} [DecidableEq α] : List (α × Nat) → α → List (α × Nat)
  | [], key => [(key, 1)]
  | (k, v) :: rest, key =>
    if k = key then (k, v + 1) :: rest else (k, v) :: addCount rest key

/-- Rust `max_by_key(|(_, count)| count)` over the map entries: among
equally maximal counts the later entry wins. -/
def maxByCount {α : Type} : List (α × Nat) → Option α
  | [] => none
  | p :: rest => some (rest.foldl (fun best x => if best.2 ≤ x.2 then x else best) p).1

/-- The count map of `Cell::year_most_phones_launched__after_year`. -/
def yearCounts (cells : List Cell) : List (Nat × Nat) :=
  cells.foldl (fun m cell =>
    match cell.launch_announced with
    | some year => if year > 1999 then addCount m year else m
    | none => m) []

/-- `Cell::year_most_phones_launched__after_year`. -/
def year_most_phones_launched__after_year (cells : List Cell) : Option Nat :=
  maxByCount (yearCounts cells)

/-- `HashMap::entry(oem).or_insert((0.0, 0)); entry.0 += weight;
entry.1 += 1` over an association list in insertion order. -/
def addOemWeight : List (String × (ℚ × Nat)) → String → ℚ → List (String × (ℚ × Nat))
  | [], oem, w => [(oem, (w, 1))]
  | (k, v) :: rest, oem, w =>
    if k = oem then (k, (v.1 + w, v.2 + 1)) :: rest
    else (k, v) :: addOemWeight rest oem w

/-- The sum/count map of `Cell::highest_avg_body_weight_oem`. -/
def oemWeights (cells : List Cell) : List (String × (ℚ × Nat)) :=
  cells.foldl (fun m cell =>
    match cell.oem, cell.body_weight with
    | some oem, some w => addOemWeight m oem w
    | _, _ => m) []

/-- `Cell::highest_avg_body_weight_oem`: empty map gives `None`,
otherwise the key whose sum/count average is maximal under `max_by`
(later entries win ties; `partial_cmp` never falls back to `Equal` on
rationals). -/
def highest_avg_body_weight_oem (cells : List Cell) : Option String :=
  match oemWeights cells with
  | [] => none
  | p :: rest =>
    some (rest.foldl (fun best x =>
      if best.2.1 / (best.2.2 : ℚ) ≤ x.2.1 / (x.2.2 : ℚ) then x else best) p).1

/-- `released_year.parse().unwrap_or_default()`: the status string as a
`u32`, with `0` for any failed parse. -/
def statusYear (rs : String) : Nat := (parseU32 rs).getD 0

/-- `Cell::phones_announced_in_one_year_released_in_another`: one push
per qualifying cell, in input order. -/
def phones_announced_in_one_year_released_in_another : List Cell → List (String × String)
  | [] => []
  | cell :: rest =>
    (match cell.launch_announced, cell.launch_status with
     | some announced_year, some released_year =>
       if announced_year ≠ statusYear released_year then
         match cell.oem, cell.model with
         | some oem, some model => [(oem, model)]
         | _, _ => []
       else []
     | _, _ => []) ++ phones_announced_in_one_year_released_in_another rest

/-- The count map of `Cell::most_common_oem`. -/
def oemCounts (cells : List Cell) : List (String × Nat) :=
  cells.foldl (fun m cell =>
    match cell.oem with
    | some oem => addCount m oem
    | none => m) []

/-- `Cell::most_common_oem`. -/
def most_common_oem (cells : List Cell) : Option String :=
  maxByCount (oemCounts cells)

/-- The key under which a display size is counted:
`display_size.to_string()`.  The Rust `f32` display string is abstracted
by an injective rendering of the rational. -/
def sizeKey (q : ℚ) : String :=
  List.asString (toString q.num).toList ++ "/" ++ List.asString (toString q.den).toList

/-- The count map of `Cell::most_common_display_size`. -/
def displaySizeCounts (cells : List Cell) : List (String × Nat) :=
  cells.foldl (fun m cell =>
    match cell.display_size with
    | some display_size => addCount m (sizeKey display_size)
    | none => m) []

/-- `Cell::most_common_display_size`. -/
def most_common_display_size (cells : List Cell) : Option String :=
  maxByCount (displaySizeCounts cells)

/-- The running sum and count of `Cell::mean_body_weight`. -/
def weightSumCount (cells : List Cell) : ℚ × Nat :=
  cells.foldl (fun acc cell =>
    match cell.body_weight with
    | some w => (acc.1 + w, acc.2 + 1)
    | none => acc) (0, 0)

/-- `Cell::mean_body_weight`: sum over count when at least one weight is
present, `None` otherwise. -/
def mean_body_weight (cells : List Cell) : Option ℚ :=
  let p := weightSumCount cells
  if p.2 > 0 then some (p.1 / (p.2 : ℚ)) else none

/-- `Cell::median_body_weight`: the present weights sorted ascending
(`sort_by` with `partial_cmp`; on rationals the comparison is total, and
any correct sort of the value list yields the same list), then the
middle element, or the average of the two middle ones, or `None` when
empty. -/
def median_body_weight (cells : List Cell) : Option ℚ :=
  let weights := (cells.filterMap Cell.body_weight).insertionSort (· ≤ ·)
  if weights.length = 0 then none
  else if weights.length % 2 = 0 then
    some ((weights.getD (weights.length / 2 - 1) 0 + weights.getD (weights.length / 2) 0) / 2)
  else some (weights.getD (weights.length / 2) 0)

/-- `Cell::insert_cell`: in-bounds (`index <= len`) insert; otherwise
print a message and leave the vector unchanged. -/
def insert_cell (cells : List Cell) (index : Nat) (new_cell : Cell) : List Cell :=
  if index ≤ cells.length then cells.insertIdx index new_cell else cells

/-- `Cell::modify_cell`: `get_mut(index)` succeeds exactly when
`index < len`; out of bounds prints a message and changes nothing. -/
def modify_cell (cells : List Cell) (index : Nat) (modified_cell : Cell) : List Cell :=
  if index < cells.length then cells.set index modified_cell else cells

/-- `Cell::delete_cell`: in-bounds (`index < len`) remove; otherwise
print a message and leave the vector unchanged. -/
def delete_cell (cells : List Cell) (index : Nat) : List Cell :=
  if index < cells.length then cells.eraseIdx index else cells

end CellsCsv

namespace CellsCsv

lemma yearAt_shape {prev : Option Char} {cs m : List Char} (h : yearAt prev cs = some m) :
    m.length = 4 ∧ ∀ c ∈ m, isNd c = true := by
  unfold yearAt at h
  split at h
  case h_1 a b c d rest =>
    split at h
    case isTrue hc =>
      simp only [Option.some.injEq] at h
      subst h
      simp only [Bool.and_eq_true] at hc
      refine ⟨rfl, ?_⟩
      intro x hx
      simp only [List.mem_cons, List.not_mem_nil, or_false] at hx
      rcases hx with rfl | rfl | rfl | rfl
      · exact hc.1.1.1.1.1
      · exact hc.1.1.1.1.2
      · exact hc.1.1.1.2
      · exact hc.1.1.2
    case isFalse => exact absurd h (by simp)
  case h_2 => exact absurd h (by simp)

lemma findYearChars_shape :
    ∀ (cs : List Char) (prev : Option Char) (m : List Char),
      findYearChars prev cs = some m → m.length = 4 ∧ ∀ c ∈ m, isNd c = true
  | [], _, m => by intro h; simp [findYearChars] at h
  | c :: rest, prev, m => by
    intro h
    unfold findYearChars at h
    cases hy : yearAt prev (c :: rest) with
    | some y =>
      rw [hy] at h
      simp only [Option.some.injEq] at h
      subst h
      exact yearAt_shape hy
    | none =>
      rw [hy] at h
      exact findYearChars_shape rest (some c) m h

/-- The shape of every `regex_year` match: four `\p{Nd}` digits. -/
lemma findYear_shape {s t : String} (h : findYear s = some t) :
    t.length = 4 ∧ ∀ c ∈ t.toList, isNd c = true := by
  unfold findYear at h
  cases hm : findYearChars none s.toList with
  | none => rw [hm] at h; simp at h
  | some m =>
    rw [hm] at h
    simp only [Option.map_some', Option.some.injEq] at h
    obtain ⟨hlen, hdig⟩ := findYearChars_shape s.toList none m hm
    subst h
    rw [List.length_asString, List.toList_asString]
    exact ⟨hlen, hdig⟩

/-- Claim C5 is false of the program: the `regex` crate's `\d` matches
any Unicode decimal digit, so `regex_year` matches the announcement
text made of the four Arabic-Indic digits U+0662 U+0660 U+0661 U+0669,
while the ASCII-only `u32` parse of that match fails.  On such a row
the `unwrap` in `read_csv` panics — the fatal branch the claim calls
unreachable.  The last conjunct evaluates the embedded row loop at the
failing record, where the panic is totalised as the default `0`. -/
theorem year_match_parse_fails_on_unicode_digits :
    findYear "٢٠١٩" = some "٢٠١٩" ∧
    parseU32 "٢٠١٩" = none ∧
    (read_row ["", "", "٢٠١٩"]).launch_announced = some 0 :=
  ⟨by decide, by decide, by decide⟩

/-- Claim C6: the normalized `launch_status` of every record is present,
never absent; it is the four digits of the first standalone 4-digit
number of the raw status text when one exists, and the raw status text
unchanged otherwise (no blank/sentinel normalization). -/
theorem launch_status_always_present (row : List String) :
    ∃ s, (read_row row).launch_status = some s ∧
      ((∃ m, findYear (getCol row 3) = some m ∧ s = m ∧ s.length = 4 ∧
          ∀ c ∈ s.toList, isNd c = true) ∨
        (findYear (getCol row 3) = none ∧ s = getCol row 3)) := by
  have hproj : (read_row row).launch_status =
      some (match findYear (getCol row 3) with
        | some y => y
        | none => getCol row 3) := rfl
  cases hm : findYear (getCol row 3) with
  | some y =>
    obtain ⟨hlen, hdig⟩ := findYear_shape hm
    refine ⟨y, ?_, Or.inl ⟨y, rfl, rfl, hlen, hdig⟩⟩
    rw [hproj, hm]
  | none =>
    refine ⟨getCol row 3, ?_, Or.inr ⟨rfl, rfl⟩⟩
    rw [hproj, hm]

/-- Claim C3: blank/sentinel normalization yields absent exactly when
the trimmed input is `""` or `"-"`, and otherwise passes the original
untrimmed string through. -/
theorem check_empty_blank_sentinel (v : String) :
    (check_empty v = none ↔ rustTrim v = "" ∨ rustTrim v = "-") ∧
    (check_empty v = none ∨ check_empty v = some v) := by
  constructor
  · unfold check_empty
    split <;> simp_all
  · unfold check_empty
    split <;> simp

/-- Claim C9: every index-addressed mutation with an out-of-bounds index
returns the collection unchanged: `insert_cell` past the length,
`modify_cell` and `delete_cell` at or past the length. -/
theorem out_of_bounds_mutations_unchanged (cells : List Cell) (index : Nat) (c : Cell) :
    (cells.length < index → insert_cell cells index c = cells) ∧
    (cells.length ≤ index → modify_cell cells index c = cells) ∧
    (cells.length ≤ index → delete_cell cells index = cells) := by
  refine ⟨fun h => ?_, fun h => ?_, fun h => ?_⟩
  · unfold insert_cell
    rw [if_neg (by omega)]
  · unfold modify_cell
    rw [if_neg (by omega)]
  · unfold delete_cell
    rw [if_neg (by omega)]

/-- Witness for C9 on the empty collection at index 1. -/
theorem out_of_bounds_mutations_unchanged_witness :
    insert_cell [] 1 Cell.new = [] ∧ modify_cell [] 1 Cell.new = [] ∧
    delete_cell [] 1 = [] := by
  obtain ⟨h1, h2, h3⟩ := out_of_bounds_mutations_unchanged [] 1 Cell.new
  exact ⟨h1 (by decide), h2 (by decide), h3 (by decide)⟩

/-- The per-record selection of
`phones_announced_in_one_year_released_in_another` as the claim states
it: both `announced_year` and `release_status` present, the announced
year different from the status parsed with `0` as the parse-failure
default, and manufacturer and model both present. -/
def mismatchedPairSpec (c : Cell) : Option (String × String) :=
  match c.launch_announced, c.launch_status, c.oem, c.model with
  | some announced, some status, some oem, some model =>
    if announced ≠ (parseU32 status).getD 0 then some (oem, model) else none
  | _, _, _, _ => none

/-- A record announced in 2019 with release status `"2020"`. -/
def cellEx1 : Cell :=
  { Cell.new with
    oem := some "X"
    model := some "Y"
    launch_announced := some 2019
    launch_status := some "2020" }

/-- A record announced in 2019 with release status `"2019"`. -/
def cellEx2 : Cell :=
  { Cell.new with
    oem := some "X"
    model := some "Y"
    launch_announced := some 2019
    launch_status := some "2019" }

/-- Claim C1: `phones_announced_in_one_year_released_in_another` returns
exactly the `(manufacturer, model)` pairs of the records whose
`announced_year` and `release_status` are present and whose announced
year differs from the status parsed with default `0`, skipping records
missing manufacturer or model; the 2019/`"2020"` record is included as
`("X", "Y")` and the 2019/`"2019"` record is excluded. -/
theorem mismatched_years_exact :
    (∀ cells : List Cell,
      phones_announced_in_one_year_released_in_another cells =
        cells.filterMap mismatchedPairSpec) ∧
    phones_announced_in_one_year_released_in_another [cellEx1] = [("X", "Y")] ∧
    phones_announced_in_one_year_released_in_another [cellEx2] = [] := by
  refine ⟨fun cells => ?_, by decide, by decide⟩
  induction cells with
  | nil => rfl
  | cons c rest ih =>
    rw [phones_announced_in_one_year_released_in_another, List.filterMap_cons, ih]
    unfold mismatchedPairSpec statusYear
    cases c.launch_announced with
    | none => simp
    | some announced =>
      cases c.launch_status with
      | none => simp
      | some status =>
        by_cases hne : announced ≠ (parseU32 status).getD 0 <;>
          cases c.oem <;> cases c.model <;> simp [hne]

/-- A record with a non-numeric status and `announced_year = 0`; such a
year is produced by `read_csv` from an announcement cell containing the
standalone text `0000`. -/
def cellC2 : Cell :=
  { Cell.new with
    oem := some "X"
    model := some "Y"
    launch_announced := some 0
    launch_status := some "Discontinued" }

/-- Counterexample to claim C2 as stated: `cellC2` has a non-numeric
`release_status`, a present `announced_year`, manufacturer and model,
yet its pair is not reported, because the parse-failure default `0`
equals the announced year `0`. -/
theorem nonnumeric_status_not_always_reported :
    cellC2.launch_status = some "Discontinued" ∧ parseU32 "Discontinued" = none ∧
    cellC2.launch_announced = some 0 ∧ cellC2.oem = some "X" ∧ cellC2.model = some "Y" ∧
    phones_announced_in_one_year_released_in_another [cellC2] = [] :=
  ⟨rfl, by decide, rfl, rfl, rfl, by decide⟩

/-- Claim C2 as amended: a record with a non-numeric `release_status`
(one `u32::from_str` rejects), a present *nonzero* `announced_year`, and
a present manufacturer and model is always reported by
`phones_announced_in_one_year_released_in_another`. -/
theorem nonnumeric_status_reported_when_year_nonzero (cells : List Cell) (c : Cell)
    (hc : c ∈ cells) (ay : Nat) (rs o m : String)
    (h1 : c.launch_announced = some ay) (h2 : ay ≠ 0)
    (h3 : c.launch_status = some rs) (h4 : parseU32 rs = none)
    (h5 : c.oem = some o) (h6 : c.model = some m) :
    (o, m) ∈ phones_announced_in_one_year_released_in_another cells := by
  induction cells with
  | nil => simp at hc
  | cons d rest ih =>
    rw [phones_announced_in_one_year_released_in_another, List.mem_append]
    rcases List.mem_cons.mp hc with rfl | hmem
    · left
      rw [h1, h3, h5, h6]
      have hzero : statusYear rs = 0 := by
        unfold statusYear
        rw [h4]
        rfl
      simp [hzero, h2]
    · right
      exact ih hmem

/-- Witness for the amended C2: a 2019-announced record with status
`"Discontinued"` is reported. -/
theorem nonnumeric_status_reported_witness :
    ("X", "Y") ∈ phones_announced_in_one_year_released_in_another
      [{ Cell.new with
          oem := some "X"
          model := some "Y"
          launch_announced := some 2019
          launch_status := some "Discontinued" }] :=
  nonnumeric_status_reported_when_year_nonzero _ _ (List.mem_singleton.mpr rfl)
    2019 "Discontinued" "X" "Y" rfl (by decide) rfl (by decide) rfl rfl

/-- A record carrying only a body weight. -/
def wcell (w : ℚ) : Cell := { Cell.new with body_weight := some w }

/-- Claim C7: `median_body_weight` is the median of the present weights
sorted ascending — middle value for an odd count, average of the two
middle values for an even count, absent for an empty set — with the
concrete instances `[100, 200] ↦ 150`, `[100, 200, 300] ↦ 200`, and no
present weights `↦` absent. -/
theorem median_is_sorted_middle :
    (∀ cells : List Cell, ∃ ws : List ℚ,
      ws.Perm (cells.filterMap Cell.body_weight) ∧ ws.Sorted (· ≤ ·) ∧
      median_body_weight cells =
        (if ws.length = 0 then none
         else if ws.length % 2 = 0 then
           some ((ws.getD (ws.length / 2 - 1) 0 + ws.getD (ws.length / 2) 0) / 2)
         else some (ws.getD (ws.length / 2) 0))) ∧
    median_body_weight [wcell 100, wcell 200] = some 150 ∧
    median_body_weight [wcell 100, wcell 200, wcell 300] = some 200 ∧
    median_body_weight [Cell.new] = none := by
  refine ⟨fun cells => ?_, ?_, ?_, ?_⟩
  · exact ⟨(cells.filterMap Cell.body_weight).insertionSort (· ≤ ·),
      List.perm_insertionSort _ _, List.sorted_insertionSort _ _, rfl⟩
  · norm_num [median_body_weight, List.insertionSort, List.orderedInsert, wcell, Cell.new]
  · norm_num [median_body_weight, List.insertionSort, List.orderedInsert, wcell, Cell.new]
  · norm_num [median_body_weight, List.insertionSort, Cell.new]

lemma foldl_fixed {β : Type} (step : β → Cell → β) :
    ∀ (cells : List Cell) (init : β), (∀ c ∈ cells, ∀ b, step b c = b) →
      cells.foldl step init = init
  | [], _ => by
    intro _
    rfl
  | c :: rest, init => by
    intro h
    rw [List.foldl_cons, h c (List.mem_cons_self c rest) init]
    exact foldl_fixed step rest init (fun x hx => h x (List.mem_cons_of_mem c hx))

lemma weightSumCount_all_none {cells : List Cell}
    (h : ∀ c ∈ cells, c.body_weight = none) : weightSumCount cells = (0, 0) := by
  unfold weightSumCount
  refine foldl_fixed _ cells (0, 0) (fun c hc b => ?_)
  rw [h c hc]

lemma oemWeights_all_none {cells : List Cell}
    (h : ∀ c ∈ cells, c.body_weight = none) : oemWeights cells = [] := by
  unfold oemWeights
  refine foldl_fixed _ cells [] (fun c hc b => ?_)
  rw [h c hc]
  cases c.oem <;> rfl

lemma oemCounts_all_none {cells : List Cell}
    (h : ∀ c ∈ cells, c.oem = none) : oemCounts cells = [] := by
  unfold oemCounts
  refine foldl_fixed _ cells [] (fun c hc b => ?_)
  rw [h c hc]

lemma displaySizeCounts_all_none {cells : List Cell}
    (h : ∀ c ∈ cells, c.display_size = none) : displaySizeCounts cells = [] := by
  unfold displaySizeCounts
  refine foldl_fixed _ cells [] (fun c hc b => ?_)
  rw [h c hc]

lemma yearCounts_all_none {cells : List Cell}
    (h : ∀ c ∈ cells, c.launch_announced = none) : yearCounts cells = [] := by
  unfold yearCounts
  refine foldl_fixed _ cells [] (fun c hc b => ?_)
  rw [h c hc]

/-- Claim C8: the aggregation queries are total functions of the record
collection (they are plain Lean functions of it), and with no
qualifying records each returns its documented absent result:
`mean_body_weight`, `median_body_weight` and
`highest_avg_body_weight_oem` with no present weights, and the other
optional-result queries with no present qualifying field. -/
theorem aggregations_empty_absent (cells : List Cell) :
    ((∀ c ∈ cells, c.body_weight = none) →
      mean_body_weight cells = none ∧ median_body_weight cells = none ∧
      highest_avg_body_weight_oem cells = none) ∧
    ((∀ c ∈ cells, c.oem = none) → most_common_oem cells = none) ∧
    ((∀ c ∈ cells, c.display_size = none) → most_common_display_size cells = none) ∧
    ((∀ c ∈ cells, c.launch_announced = none) →
      year_most_phones_launched__after_year cells = none) := by
  refine ⟨fun h => ⟨?_, ?_, ?_⟩, fun h => ?_, fun h => ?_, fun h => ?_⟩
  · rw [mean_body_weight, weightSumCount_all_none h]
    rfl
  · rw [median_body_weight]
    rw [List.filterMap_eq_nil_iff.mpr h]
    rfl
  · rw [highest_avg_body_weight_oem, oemWeights_all_none h]
  · rw [most_common_oem, oemCounts_all_none h]
    rfl
  · rw [most_common_display_size, displaySizeCounts_all_none h]
    rfl
  · rw [year_most_phones_launched__after_year, yearCounts_all_none h]
    rfl

/-- Witness for C8 on a one-record collection with every field absent. -/
theorem aggregations_empty_absent_witness :
    (mean_body_weight [Cell.new] = none ∧ median_body_weight [Cell.new] = none ∧
      highest_avg_body_weight_oem [Cell.new] = none) ∧
    most_common_oem [Cell.new] = none ∧ most_common_display_size [Cell.new] = none ∧
    year_most_phones_launched__after_year [Cell.new] = none := by
  obtain ⟨h1, h2, h3, h4⟩ := aggregations_empty_absent [Cell.new]
  exact ⟨h1 (by decide), h2 (by decide), h3 (by decide), h4 (by decide)⟩

lemma addCount_ne_nil {α : Type} [DecidableEq α] (m : List (α × Nat)) (key : α) :
    addCount m key ≠ [] := by
  cases m with
  | nil => simp [addCount]
  | cons p rest =>
    obtain ⟨k, v⟩ := p
    unfold addCount
    split <;> simp

lemma oemCountsFold_ne_nil :
    ∀ (cells : List Cell) (m : List (String × Nat)), m ≠ [] →
      cells.foldl (fun m cell =>
        match cell.oem with
        | some oem => addCount m oem
        | none => m) m ≠ []
  | [], m => fun h => h
  | c :: rest, m => by
    intro h
    rw [List.foldl_cons]
    refine oemCountsFold_ne_nil rest _ ?_
    cases c.oem with
    | some oem => exact addCount_ne_nil m oem
    | none => exact h

/-- Claim C10: every record built by `read_csv` has its `oem` field
present (though possibly the empty string), so `most_common_oem` on a
nonempty `read_csv` result is never absent. -/
theorem read_csv_oem_always_present (rows : List (List String)) :
    (∀ cell ∈ read_csv rows, cell.oem.isSome = true) ∧
    (rows ≠ [] → (most_common_oem (read_csv rows)).isSome = true) := by
  constructor
  · intro cell hcell
    obtain ⟨r, _, rfl⟩ := List.mem_map.mp hcell
    rfl
  · intro hne
    cases rows with
    | nil => exact absurd rfl hne
    | cons r rs =>
      have hcounts : oemCounts (read_csv (r :: rs)) ≠ [] := by
        show List.foldl _ [] (read_row r :: List.map read_row rs) ≠ []
        rw [List.foldl_cons]
        exact oemCountsFold_ne_nil (List.map read_row rs) _ (addCount_ne_nil [] (getCol r 0))
      rw [most_common_oem]
      cases hm : oemCounts (read_csv (r :: rs)) with
      | nil => exact absurd hm hcounts
      | cons p ps => rfl

/-- Witness for C10 on the one-record input `[["A"]]`. -/
theorem read_csv_oem_always_present_witness :
    (read_row ["A"]).oem.isSome = true ∧
    (most_common_oem (read_csv [["A"]])).isSome = true := by
  obtain ⟨h1, h2⟩ := read_csv_oem_always_present [["A"]]
  exact ⟨h1 (read_row ["A"]) (List.mem_singleton.mpr rfl), h2 (by simp)⟩

end CellsCsv
